import Mathlib

/-!
Verification of the bitnode_monitor repository's health-signal estimation
and alert-deduplication engine, as a shallow embedding in Lean 4.

Conventions of the embedding:
* Python floats (timestamps, rates, thresholds) are modelled as exact
  rationals `ℚ`; heights and counters as `Int`.
* `time.time()` calls become explicit `now : ℚ` parameters.
* `None` becomes `Option`.
* Stateful classes become structures with explicit state-passing tick
  functions; I/O readings (heights, service-active flags, parsed job lines,
  RPC probe results) become per-tick inputs.
-/

namespace BitnodeMonitor

/-! ## SpeedTracker (src/speed_tracker.py)

`SpeedTracker.update` / `SpeedTracker.get_stats`, translated line by line.
-/

/-- State of `SpeedTracker`: `window`, `samples`, `last_height`, `last_time`. -/
structure SpeedTracker where
  window : Nat
  samples : List ℚ
  last_height : Option Int
  last_time : Option ℚ
  deriving Repr, DecidableEq

/-- Fresh tracker, as built by `SpeedTracker.__init__(window)`. -/
def SpeedTracker.mk0 (window : Nat) : SpeedTracker :=
  { window := window, samples := [], last_height := none, last_time := none }

/-- Python's `xs[-n:]` slice on a list: for `n = 0` it is `xs[0:]`, i.e. the
whole list (Python `-0 == 0`); for `n > 0` it keeps the last `n` elements. -/
def pySliceLast (n : Nat) (xs : List ℚ) : List ℚ :=
  if n = 0 then xs else xs.drop (xs.length - n)

/-- `SpeedTracker.update(height)` with the internal `time.time()` made an
explicit `now` argument. Mirrors the source:
the inner block runs only when both `last_height` and `height` are non-`None`;
`dt` falls back to `0` when `last_time` is `None`; a rate sample is appended
only when `dt > 0 and dh >= 0`, trimmed by `samples[-window:]` when the
length exceeds `window`; `last_height`/`last_time` are always reassigned. -/
def SpeedTracker.update (s : SpeedTracker) (height : Option Int) (now : ℚ) :
    SpeedTracker :=
  let samples :=
    match s.last_height, height with
    | some lh, some h =>
      let dh : Int := h - lh
      let dt : ℚ := match s.last_time with
        | some t => now - t
        | none => 0
      if 0 < dt ∧ 0 ≤ dh then
        let appended := s.samples ++ [(dh : ℚ) / dt]
        if s.window < appended.length then pySliceLast s.window appended
        else appended
      else s.samples
    | _, _ => s.samples
  { s with samples := samples, last_height := height, last_time := some now }

/-- EMA smoothing factor `alpha = 0.2` from `get_stats`. -/
def alpha : ℚ := 1/5

/-- The EMA loop of `get_stats`: seed at the first sample, then
`ema = alpha * s + (1 - alpha) * ema` over the remaining samples. -/
def emaFold (x : ℚ) (xs : List ℚ) : ℚ :=
  xs.foldl (fun e s => alpha * s + (1 - alpha) * e) x

/-- Arithmetic mean of a list of rationals. -/
def listMean (xs : List ℚ) : ℚ := xs.sum / (xs.length : ℚ)

/-- Population variance, the square of `statistics.pstdev`. -/
def pvarianceQ (xs : List ℚ) : ℚ :=
  ((xs.map (fun x => (x - listMean xs) ^ 2)).sum) / (xs.length : ℚ)

/-- `statistics.pstdev`: square root of the population variance. -/
noncomputable def pstdev (xs : List ℚ) : ℝ :=
  Real.sqrt ((pvarianceQ xs : ℚ) : ℝ)

/-- `SpeedTracker.get_stats()`: `(None, None)` on empty history, otherwise
the EMA fold seeded at the first sample, and `statistics.pstdev(samples)`
when more than one sample is held, else `0.0`. -/
noncomputable def SpeedTracker.get_stats (s : SpeedTracker) :
    Option ℚ × Option ℝ :=
  match s.samples with
  | [] => (none, none)
  | x :: rest =>
    (some (emaFold x rest),
     some (if 1 < (x :: rest).length then pstdev (x :: rest) else 0))

/-! ## CooldownGate

The cooldown pattern used throughout the repository (datum_monitor.py,
bitaxe_checker.py): a per-class `last_fired_at` timestamp initialised to
`0.0`, the test `(now - last_fired_at) >= cooldown`, and recording
`last_fired_at = now` on firing.
-/

/-- A single alert class's cooldown state: its last-fired timestamp
(e.g. `_last_alert_ts`, `_last_zero_client_alert_ts`, `_last_urgent_ts`,
`_last_fallback_ts`), initialised to `0.0`. -/
structure CooldownGate where
  lastFiredAt : ℚ
  deriving Repr, DecidableEq

/-- The never-fired initial gate (`= 0.0` in every constructor). -/
def CooldownGate.mk0 : CooldownGate := ⟨0⟩

/-- The firing test `(now - last_ts) >= cooldown_sec`. -/
def CooldownGate.shouldFire (g : CooldownGate) (cooldown now : ℚ) : Bool :=
  decide (cooldown ≤ now - g.lastFiredAt)

/-- Recording a firing: `last_ts = now`. -/
def CooldownGate.recordFired (_g : CooldownGate) (now : ℚ) : CooldownGate :=
  ⟨now⟩

/-! ## DatumMonitor.watchdog_tick (src/datum_monitor.py)

State: `_last_alert_ts` (shared by the service-inactive alert of check 1 and
the no-job-progress alert of check 3), `_last_zero_client_alert_ts`
(check 2), `_last_job_ts`. The `systemctl is-active` probe and the parsed
journal job line are per-tick inputs; `_last_job_info` only feeds message
text and is omitted.
-/

/-- Mutable state of `DatumMonitor` relevant to `watchdog_tick`. -/
structure DatumState where
  lastAlertTs : ℚ
  lastZeroClientAlertTs : ℚ
  lastJobTs : Option ℚ
  deriving Repr, DecidableEq

/-- Initial `DatumMonitor` alert state (`_last_alert_ts = 0.0`,
`_last_zero_client_alert_ts = 0.0`, `_last_job_ts = None`). -/
def DatumState.mk0 : DatumState :=
  { lastAlertTs := 0, lastZeroClientAlertTs := 0, lastJobTs := none }

/-- A parsed job line: the stratum client count and the line's timestamp
(the fields of `parse_last_job` that `watchdog_tick` reads). -/
structure DatumJob where
  clients : Nat
  timestamp : ℚ
  deriving Repr, DecidableEq

/-- Result of one `watchdog_tick`: the new state and which of the three
alerts were emitted this tick. -/
structure DatumTickResult where
  state : DatumState
  firedInactive : Bool
  firedZeroClients : Bool
  firedNoJob : Bool
  deriving Repr, DecidableEq

/-- `DatumMonitor.watchdog_tick()`, with `time.time()`, the
`systemctl is-active` result and `parse_last_job()` as explicit inputs.
Check 1: if the service is inactive, alert iff
`now - _last_alert_ts >= cooldown_sec` (then `_last_alert_ts = now`) and
return without the other checks. Check 2: if a job parsed, record
`_last_job_ts` and alert on zero clients iff
`now - _last_zero_client_alert_ts >= cooldown_sec`. Check 3: if
`now - _last_job_ts > no_job_sec`, alert iff
`now - _last_alert_ts >= cooldown_sec` (then `_last_alert_ts = now`). -/
def datumTick (cooldownSec noJobSec : ℚ) (s : DatumState) (now : ℚ)
    (active : Bool) (job : Option DatumJob) : DatumTickResult :=
  if !active then
    if cooldownSec ≤ now - s.lastAlertTs then
      ⟨{ s with lastAlertTs := now }, true, false, false⟩
    else
      ⟨s, false, false, false⟩
  else
    let step2 : DatumState × Bool :=
      match job with
      | some j =>
        let s' := { s with lastJobTs := some j.timestamp }
        if j.clients = 0 ∧ cooldownSec ≤ now - s.lastZeroClientAlertTs then
          ({ s' with lastZeroClientAlertTs := now }, true)
        else (s', false)
      | none => (s, false)
    let s1 := step2.1
    let zc := step2.2
    match s1.lastJobTs with
    | some jt =>
      if noJobSec < now - jt ∧ cooldownSec ≤ now - s1.lastAlertTs then
        ⟨{ s1 with lastAlertTs := now }, false, zc, true⟩
      else ⟨s1, false, zc, false⟩
    | none => ⟨s1, false, zc, false⟩

/-! ## MonitorController.run, one tick (src/monitor_controller.py)

The per-iteration body of the `while True` loop, lines 266–384, restricted
to the decision logic: the fulcrum stall state machine (lines 276–344),
the inlined auto-restart recovery gate (lines 319–342), and the
CPU/RAM/SSD-temperature threshold alerts (lines 353–369). Height readings,
system metrics and the bitcoind RPC probe outcome are per-tick inputs.
-/

/-- The configuration scalars the modelled tick reads. -/
structure MonConfig where
  stallThreshold : ℚ
  minRecoveryInterval : ℚ
  enableAutoRestart : Bool
  rpcLatencyThreshold : ℚ
  cpuAlertThreshold : ℚ
  ramAlertThreshold : ℚ
  ssdTempThreshold : ℚ
  deriving Repr, DecidableEq

/-- Stall / recovery state of `MonitorController`. -/
structure MonState where
  lastFulcrumHeight : Option Int
  lastHeightChangeTime : Option ℚ
  stallNotified : Bool
  lastRecoveryTime : ℚ
  deriving Repr, DecidableEq

/-- Initial controller state (`last_fulcrum_height = None`,
`last_height_change_time = None`, `stall_notified = False`,
`last_recovery_time = 0`). -/
def MonState.mk0 : MonState :=
  { lastFulcrumHeight := none, lastHeightChangeTime := none,
    stallNotified := false, lastRecoveryTime := 0 }

/-- Outcome labels for the inlined recovery gate of lines 319–342. -/
inductive RecoveryOutcome where
  | skippedDisabled
  | skippedRateLimited
  | skippedDependencyUnhealthy
  | performed
  deriving Repr, DecidableEq

/-- Result of one pass through the recovery gate: its outcome, whether the
bitcoind RPC health probe was invoked, whether `restart_fulcrum` ran, and
the resulting `last_recovery_time`. -/
structure RecoveryResult where
  outcome : RecoveryOutcome
  probeInvoked : Bool
  restarted : Bool
  lastRecoveryTime : ℚ
  deriving Repr, DecidableEq

/-- Lines 319–342 of `MonitorController.run`: the auto-restart path guarded
by `if self.enable_auto_restart and (now - self.last_recovery_time >
self.min_recovery_interval)` (Python `and` short-circuits, so the RPC probe
runs only past both), then the probe health test `test_height is None or
rpc_latency > self.rpc_latency_threshold`; on the healthy branch
`restart_fulcrum` runs and `last_recovery_time = now`. The probe's reading
and latency are inputs. -/
def attemptRecovery (cfg : MonConfig) (lastRecoveryTime now : ℚ)
    (probeHeight : Option Int) (probeLatency : ℚ) : RecoveryResult :=
  if !cfg.enableAutoRestart then
    ⟨.skippedDisabled, false, false, lastRecoveryTime⟩
  else if !(decide (cfg.minRecoveryInterval < now - lastRecoveryTime)) then
    ⟨.skippedRateLimited, false, false, lastRecoveryTime⟩
  else if probeHeight = none ∨ cfg.rpcLatencyThreshold < probeLatency then
    ⟨.skippedDependencyUnhealthy, true, false, lastRecoveryTime⟩
  else
    ⟨.performed, true, true, now⟩

/-- Per-tick inputs of the modelled main-loop iteration: `loop_start`, the
two height readings (`None` on read failure), and the bitcoind probe
outcome that would be observed were the probe invoked. -/
structure TickInput where
  now : ℚ
  btcHeight : Option Int
  fulHeight : Option Int
  probeHeight : Option Int
  probeLatency : ℚ
  deriving Repr, DecidableEq

/-- Result of the stall/recovery section of one tick. -/
structure MonTickResult where
  state : MonState
  stallAlert : Bool
  recovery : Option RecoveryResult
  deriving Repr, DecidableEq

/-- Lines 269–344 of `MonitorController.run`: if either height reading is
`None`, only warn. Otherwise, if `last_fulcrum_height is None or
ful_height != last_fulcrum_height`, record the datapoint, set
`last_height_change_time = loop_start` and clear `stall_notified`.
Otherwise, when `last_height_change_time` is set and
`loop_start - last_height_change_time > stall_threshold` with
`stall_notified` false, emit the stall alert, run the recovery gate, and set
`stall_notified = True`. -/
def monTick (cfg : MonConfig) (s : MonState) (i : TickInput) : MonTickResult :=
  match i.btcHeight, i.fulHeight with
  | some _, some ful =>
    if s.lastFulcrumHeight = none ∨ some ful ≠ s.lastFulcrumHeight then
      ⟨{ s with lastFulcrumHeight := some ful,
                lastHeightChangeTime := some i.now,
                stallNotified := false }, false, none⟩
    else
      match s.lastHeightChangeTime with
      | some tc =>
        if cfg.stallThreshold < i.now - tc ∧ s.stallNotified = false then
          let r := attemptRecovery cfg s.lastRecoveryTime i.now
            i.probeHeight i.probeLatency
          ⟨{ s with stallNotified := true,
                    lastRecoveryTime := r.lastRecoveryTime },
           true, some r⟩
        else ⟨s, false, none⟩
      | none => ⟨s, false, none⟩
  | _, _ => ⟨s, false, none⟩

/-- Run the stall/recovery section over a list of ticks, collecting the
final state and the number of stall alerts emitted. -/
def monRun (cfg : MonConfig) (s : MonState) : List TickInput → MonState × Nat
  | [] => (s, 0)
  | i :: rest =>
    let r := monTick cfg s i
    let tail := monRun cfg r.state rest
    (tail.1, (if r.stallAlert then 1 else 0) + tail.2)

/-- Per-tick system metric readings (lines 350–351): CPU %, RAM %, SSD
temperature, each `None` when unavailable. -/
structure SysReading where
  cpuPct : Option ℚ
  ramPct : Option ℚ
  ssdTemp : Option ℚ
  deriving Repr, DecidableEq

/-- Lines 353–369 of `MonitorController.run`: the CPU, RAM and SSD
temperature alerts. Each fires iff the reading is present and strictly
above its threshold; no state is read or written. -/
def sysAlerts (cfg : MonConfig) (r : SysReading) : Bool × Bool × Bool :=
  ((match r.cpuPct with
    | some c => decide (cfg.cpuAlertThreshold < c)
    | none => false),
   (match r.ramPct with
    | some m => decide (cfg.ramAlertThreshold < m)
    | none => false),
   (match r.ssdTemp with
    | some t => decide (cfg.ssdTempThreshold < t)
    | none => false))

/-- Number of CPU-high alerts dispatched over a run of ticks with the given
metric readings. -/
def cpuAlertCount (cfg : MonConfig) (rs : List SysReading) : Nat :=
  (rs.filter (fun r => (sysAlerts cfg r).1)).length

/-! ## ETA model (src/eta_model.py)

`_monotonic_progress`, `_fit_regression`, `_format_eta_summary` and the
entry point `compute_eta_and_charts`, with the parsed `monitor.log` samples
as input (parsing and chart rendering are I/O; `numpy` is assumed
installed as on the target host, and `np.polyfit(x, y, 1)` is the ordinary
degree-1 least-squares fit). All definitions are total, so none of the
modelled failures is a fatal error.
-/

/-- One parsed `Heights:` line: timestamp (seconds), fulcrum height, lag. -/
structure Sample where
  timestamp : ℚ
  fulcrum_height : Int
  lag : Int
  deriving Repr, DecidableEq

/-- The loop body of `_monotonic_progress`, carrying
`(last_height, last_lag)` once the first sample is kept. -/
def monoFilterFrom : Option (Int × Int) → List Sample → List Sample
  | _, [] => []
  | none, s :: rest =>
    s :: monoFilterFrom (some (s.fulcrum_height, s.lag)) rest
  | some (lh, ll), s :: rest =>
    if lh < s.fulcrum_height ∨ s.lag < ll then
      s :: monoFilterFrom (some (s.fulcrum_height, s.lag)) rest
    else monoFilterFrom (some (lh, ll)) rest

/-- `_monotonic_progress(samples)`: keep a sample iff its height strictly
increases or its lag strictly decreases relative to the last kept sample;
the first sample is always kept. -/
def monotonicProgress (samples : List Sample) : List Sample :=
  monoFilterFrom none samples

/-- Maximum of a list of rationals, seeded at the first element
(`0` for the empty list, which callers never pass). -/
def listMax : List ℚ → ℚ
  | [] => 0
  | x :: xs => xs.foldl max x

/-- Minimum of a list of rationals, seeded at the first element. -/
def listMin : List ℚ → ℚ
  | [] => 0
  | x :: xs => xs.foldl min x

/-- Dot product of two rational lists. -/
def dotQ (xs ys : List ℚ) : ℚ := (List.zipWith (· * ·) xs ys).sum

/-- Degree-1 least-squares slope of `np.polyfit(xs, ys, 1)`:
`(n·Σxy − Σx·Σy) / (n·Σx² − (Σx)²)`. -/
def lsqSlope (xs ys : List ℚ) : ℚ :=
  ((xs.length : ℚ) * dotQ xs ys - xs.sum * ys.sum) /
    ((xs.length : ℚ) * dotQ xs xs - xs.sum ^ 2)

/-- Degree-1 least-squares intercept: `(Σy − a·Σx) / n`. -/
def lsqIntercept (xs ys : List ℚ) : ℚ :=
  (ys.sum - lsqSlope xs ys * xs.sum) / (xs.length : ℚ)

/-- The `RuntimeError`s `_fit_regression` raises, in source order:
fewer than 5 progress points; zero time span; non-positive slope. -/
inductive FitError where
  | notEnoughPoints
  | zeroTimeSpan
  | nonPositiveRate
  deriving Repr, DecidableEq

/-- The `times_sec` list of `_fit_regression`: seconds since the first
sample. -/
def timesSec (samples : List Sample) : List ℚ :=
  match samples with
  | [] => []
  | s0 :: _ => samples.map (fun s => s.timestamp - s0.timestamp)

/-- The guard quantity `max(times_sec) - min(times_sec)` of
`_fit_regression`. -/
def timeSpan (samples : List Sample) : ℚ :=
  listMax (timesSec samples) - listMin (timesSec samples)

/-- `_fit_regression(samples)`: raise on `len(samples) < 5`, then on a
non-positive time span, then fit `blocks ≈ a·t + b` by least squares and
raise on `a <= 0`; otherwise return `(a, b)`. -/
def fitRegression (samples : List Sample) : Except FitError (ℚ × ℚ) :=
  if samples.length < 5 then .error .notEnoughPoints
  else
    let times := timesSec samples
    let heights := samples.map (fun s => (s.fulcrum_height : ℚ))
    if listMax times - listMin times ≤ 0 then .error .zeroTimeSpan
    else
      let a := lsqSlope times heights
      if a ≤ 0 then .error .nonPositiveRate
      else .ok (a, lsqIntercept times heights)

/-- The numeric fields `_format_eta_summary` computes for the summary
text. -/
structure EtaSummary where
  speed : ℚ
  sampleCount : Nat
  fulcrumTip : Int
  lagBlocks : Int
  tipHeight : Int
  etaSeconds : ℚ
  etaFastSeconds : ℚ
  etaSlowSeconds : ℚ
  deriving Repr, DecidableEq

/-- `_format_eta_summary(samples, speed, intercept)`: reads
`last = samples[-1]`, raises (`Except.error`) when `last.lag <= 0`, else
computes the central ETA `lag / speed` and the ±20% band. The `samples[-1]`
of the source presupposes a non-empty list; its callers guarantee at least
5 samples, and the empty case is mapped to the same error path. -/
def formatEtaSummary (samples : List Sample) (speed : ℚ) :
    Except Unit EtaSummary :=
  match samples.getLast? with
  | none => .error ()
  | some last =>
    if last.lag ≤ 0 then .error ()
    else
      .ok { speed := speed
            sampleCount := samples.length
            fulcrumTip := last.fulcrum_height
            lagBlocks := last.lag
            tipHeight := last.fulcrum_height + last.lag
            etaSeconds := (last.lag : ℚ) / speed
            etaFastSeconds := (last.lag : ℚ) / (speed * (6/5))
            etaSlowSeconds := (last.lag : ℚ) / (speed * (4/5)) }

/-- The outcomes of `compute_eta_and_charts`: every constructor except `ok`
is returned as a human-readable error text with `(None, None)` chart
paths. -/
inductive EtaOutcome where
  | noData
  | notEnoughPoints (have_ : Nat)
  | fitFailed (e : FitError)
  | etaFailed
  | ok (r : EtaSummary)
  deriving Repr, DecidableEq

/-- `compute_eta_and_charts()` with the parsed log samples as input: empty
log → `noData`; fewer than 5 monotonic progress points → `notEnoughPoints`;
a `RuntimeError` from `_fit_regression` → `fitFailed` (caught, textual);
a `RuntimeError` from `_format_eta_summary` → `etaFailed` (caught,
textual); otherwise the summary. -/
def computeEtaAndCharts (allSamples : List Sample) : EtaOutcome :=
  if allSamples.isEmpty then .noData
  else
    let samples := monotonicProgress allSamples
    if samples.length < 5 then .notEnoughPoints samples.length
    else
      match fitRegression samples with
      | .error e => .fitFailed e
      | .ok (a, _b) =>
        match formatEtaSummary samples a with
        | .error _ => .etaFailed
        | .ok r => .ok r

/-! ## Helper lemmas -/

/-- Dropping fewer elements than the length preserves the last element. -/
theorem getLast?_drop_of_lt {α : Type} :
    ∀ (xs : List α) (k : Nat), k < xs.length →
      (xs.drop k).getLast? = xs.getLast?
  | [], k, hk => by simp at hk
  | a :: t, 0, _ => rfl
  | a :: t, k + 1, hk => by
    have hk' : k < t.length := by simpa using hk
    have ih := getLast?_drop_of_lt t k hk'
    cases t with
    | nil => simp at hk'
    | cons b t' => simpa using ih

/-- `pySliceLast` keeps a suffix, so membership is preserved. -/
theorem mem_of_mem_pySliceLast {n : Nat} {xs : List ℚ} {x : ℚ}
    (hx : x ∈ pySliceLast n xs) : x ∈ xs := by
  unfold pySliceLast at hx
  split at hx
  · exact hx
  · exact List.mem_of_mem_drop hx

/-- Length of `pySliceLast` for a positive slice width. -/
theorem pySliceLast_length {n : Nat} (hn : n ≠ 0) (xs : List ℚ) :
    (pySliceLast n xs).length = xs.length - (xs.length - n) := by
  simp [pySliceLast, hn]

/-! ## Theorems -/

/-- C2: the recovery gate of `MonitorController.run` (lines 319–342) applies
its checks in order: a disabled auto-restart flag skips recovery without
invoking the bitcoind probe; otherwise, when `now - last_recovery_time` is
not strictly greater than `min_recovery_interval`, recovery is skipped
without invoking the probe; otherwise the probe runs, and a failed reading
or a latency above the threshold skips the restart; otherwise the restart
is performed and `last_recovery_time` becomes `now`. A disabled flag or an
unhealthy probe prevents recovery under every other condition, with no
grace period on the first attempt. -/
theorem c2_recovery_gate_order (cfg : MonConfig) (lastRec now : ℚ)
    (probeHeight : Option Int) (probeLatency : ℚ) :
    (cfg.enableAutoRestart = false →
      attemptRecovery cfg lastRec now probeHeight probeLatency =
        ⟨.skippedDisabled, false, false, lastRec⟩) ∧
    (cfg.enableAutoRestart = true →
      now - lastRec ≤ cfg.minRecoveryInterval →
      attemptRecovery cfg lastRec now probeHeight probeLatency =
        ⟨.skippedRateLimited, false, false, lastRec⟩) ∧
    (cfg.enableAutoRestart = true →
      cfg.minRecoveryInterval < now - lastRec →
      (probeHeight = none ∨ cfg.rpcLatencyThreshold < probeLatency) →
      attemptRecovery cfg lastRec now probeHeight probeLatency =
        ⟨.skippedDependencyUnhealthy, true, false, lastRec⟩) ∧
    (cfg.enableAutoRestart = true →
      cfg.minRecoveryInterval < now - lastRec →
      probeHeight ≠ none → probeLatency ≤ cfg.rpcLatencyThreshold →
      attemptRecovery cfg lastRec now probeHeight probeLatency =
        ⟨.performed, true, true, now⟩) := by
  refine ⟨fun h1 => ?_, fun h1 h2 => ?_, fun h1 h2 h3 => ?_,
    fun h1 h2 h3 h4 => ?_⟩
  · simp [attemptRecovery, h1]
  · simp [attemptRecovery, h1, not_lt.mpr h2]
  · simp only [attemptRecovery, h1, Bool.not_true, Bool.false_eq_true,
      if_false, decide_eq_true (h2), Bool.not_true, if_false]
    simp [h3]
  · simp only [attemptRecovery, h1, Bool.not_true, Bool.false_eq_true,
      if_false, decide_eq_true (h2), Bool.not_true, if_false]
    simp [h3, not_lt.mpr h4]

/-- Witness for C2 at concrete inputs covering all four branches. -/
theorem c2_recovery_gate_order_witness :
    attemptRecovery ⟨1800, 600, false, 10, 90, 90, 65⟩ 0 1000000
        (some 900000) 1 = ⟨.skippedDisabled, false, false, 0⟩ ∧
    attemptRecovery ⟨1800, 600, true, 10, 90, 90, 65⟩ 0 500
        (some 900000) 1 = ⟨.skippedRateLimited, false, false, 0⟩ ∧
    attemptRecovery ⟨1800, 600, true, 10, 90, 90, 65⟩ 0 1000000
        none 1 = ⟨.skippedDependencyUnhealthy, true, false, 0⟩ ∧
    attemptRecovery ⟨1800, 600, true, 10, 90, 90, 65⟩ 0 1000000
        (some 900000) 1 = ⟨.performed, true, true, 1000000⟩ :=
  ⟨(c2_recovery_gate_order _ 0 1000000 _ 1).1 rfl,
   (c2_recovery_gate_order _ 0 500 _ 1).2.1 rfl (by norm_num),
   (c2_recovery_gate_order _ 0 1000000 _ 1).2.2.1 rfl (by norm_num)
     (Or.inl rfl),
   (c2_recovery_gate_order _ 0 1000000 _ 1).2.2.2 rfl (by norm_num)
     (by simp) (by norm_num)⟩

/-- C3: the cooldown gate fires iff `now - last_fired_at >= cooldown`, and
firing sets `last_fired_at = now`; in `DatumMonitor.watchdog_tick` the
service-inactive alert is exactly this gate on `_last_alert_ts`. From the
never-fired initial state (timestamp `0`), the gate is true on a first call
at `n0` (provided `n0 - 0` has reached the cooldown), false on every call
strictly inside the window, and true again exactly at
`now = last_fired_at + cooldown`. -/
theorem c3_cooldown_gate_fire_iff (cd njs last now n0 : ℚ) (s : DatumState)
    (job : Option DatumJob) :
    (CooldownGate.shouldFire ⟨last⟩ cd now = true ↔ cd ≤ now - last) ∧
    (CooldownGate.recordFired ⟨last⟩ now = ⟨now⟩) ∧
    ((datumTick cd njs s now false job).firedInactive =
      CooldownGate.shouldFire ⟨s.lastAlertTs⟩ cd now) ∧
    ((datumTick cd njs s now false job).firedInactive = true →
      (datumTick cd njs s now false job).state.lastAlertTs = now) ∧
    (cd ≤ n0 - 0 →
      CooldownGate.shouldFire CooldownGate.mk0 cd n0 = true ∧
      (∀ t, t - n0 < cd →
        CooldownGate.shouldFire (CooldownGate.mk0.recordFired n0) cd t
          = false) ∧
      CooldownGate.shouldFire (CooldownGate.mk0.recordFired n0) cd (n0 + cd)
        = true) := by
  refine ⟨by simp [CooldownGate.shouldFire], rfl, ?_, ?_, fun h0 => ?_⟩
  · by_cases hc : cd ≤ now - s.lastAlertTs <;>
      simp [datumTick, CooldownGate.shouldFire, hc]
  · by_cases hc : cd ≤ now - s.lastAlertTs <;>
      simp [datumTick, CooldownGate.shouldFire, hc]
  · refine ⟨?_, fun t ht => ?_, ?_⟩
    · simp [CooldownGate.shouldFire, CooldownGate.mk0]
      linarith
    · simp [CooldownGate.shouldFire, CooldownGate.recordFired,
        CooldownGate.mk0]
      linarith
    · simp [CooldownGate.shouldFire, CooldownGate.recordFired,
        CooldownGate.mk0]

/-- Witness for C3: cooldown 300, first fire at 1000, suppressed at 1100,
enabled again exactly at 1300. -/
theorem c3_cooldown_gate_fire_iff_witness :
    CooldownGate.shouldFire CooldownGate.mk0 300 1000 = true ∧
    CooldownGate.shouldFire (CooldownGate.mk0.recordFired 1000) 300 1100
      = false ∧
    CooldownGate.shouldFire (CooldownGate.mk0.recordFired 1000) 300 1300
      = true :=
  have h := (c3_cooldown_gate_fire_iff 300 300 0 0 1000 DatumState.mk0
    none).2.2.2.2 (by norm_num)
  ⟨h.1, h.2.1 1100 (by norm_num), by norm_num at h; exact h.2.2⟩

/-- C4 counterexample: the claim asserts that the tick loop's CPU/RAM/
temperature threshold alerts pass through a per-class cooldown gate, so
that no class is dispatched twice within its cooldown window. Lines
353–369 of `MonitorController.run` carry no cooldown state at all: with
the CPU threshold at 90, two consecutive ticks (one `check_interval`
apart, i.e. inside any cooldown window longer than a single interval) both
observing CPU 95 each dispatch a CPU-high alert, for two dispatches of the
same class in immediate succession. -/
theorem c4_counterexample :
    (sysAlerts ⟨1800, 600, false, 10, 90, 90, 65⟩ ⟨some 95, some 50, some 40⟩).1
      = true ∧
    cpuAlertCount ⟨1800, 600, false, 10, 90, 90, 65⟩
      [⟨some 95, some 50, some 40⟩, ⟨some 95, some 50, some 40⟩] = 2 := by
  constructor
  · norm_num [sysAlerts]
  · norm_num [cpuAlertCount, sysAlerts, List.filter]

/-- C4 amended: the datum and bitaxe alert classes consult a cooldown check
before dispatch, but the simple boolean-threshold CPU/RAM/SSD-temperature
alerts of the main tick loop are dispatched unconditionally: each fires on
a tick iff the metric is read and strictly exceeds its threshold, the
decision depends on no history, and every exceeding tick of a run adds one
dispatch regardless of how recently the class last fired. -/
theorem c4_sys_alerts_ungated (cfg : MonConfig) (r : SysReading)
    (rs : List SysReading) :
    ((sysAlerts cfg r).1 = true ↔
      ∃ c, r.cpuPct = some c ∧ cfg.cpuAlertThreshold < c) ∧
    ((sysAlerts cfg r).2.1 = true ↔
      ∃ m, r.ramPct = some m ∧ cfg.ramAlertThreshold < m) ∧
    ((sysAlerts cfg r).2.2 = true ↔
      ∃ t, r.ssdTemp = some t ∧ cfg.ssdTempThreshold < t) ∧
    (cpuAlertCount cfg (r :: rs) =
      (if (sysAlerts cfg r).1 = true then 1 else 0) + cpuAlertCount cfg rs) := by
  refine ⟨?_, ?_, ?_, ?_⟩
  · rcases r with ⟨cpu, ram, ssd⟩
    cases cpu <;> simp [sysAlerts]
  · rcases r with ⟨cpu, ram, ssd⟩
    cases ram <;> simp [sysAlerts]
  · rcases r with ⟨cpu, ram, ssd⟩
    cases ssd <;> simp [sysAlerts]
  · by_cases hb : (sysAlerts cfg r).1 = true <;>
      simp [cpuAlertCount, List.filter_cons, hb, Nat.add_comm]

/-- C5 counterexample: the datum service-inactive alert and the datum
no-job-progress alert share the single timestamp `_last_alert_ts`
(`datum_monitor.py` lines 206–207 and 239–240). With cooldown 900 and
no-job threshold 300, from a state whose last job was at time 0: an
inactive alert fired at time 1000 moves the shared timestamp to 1000, and
the no-job alert — due at time 1200, since 1200 s without a job exceeds
300 and no no-job alert has ever fired — is suppressed; from the same
start state without the inactive firing, it fires. Firing one class thus
resets the other's cooldown. -/
theorem c5_counterexample :
    (datumTick 900 300 ⟨0, 0, some 0⟩ 1000 false none).firedInactive
      = true ∧
    (datumTick 900 300 ⟨0, 0, some 0⟩ 1000 false none).state.lastAlertTs
      = 1000 ∧
    (datumTick 900 300
        (datumTick 900 300 ⟨0, 0, some 0⟩ 1000 false none).state
        1200 true none).firedNoJob = false ∧
    (datumTick 900 300 ⟨0, 0, some 0⟩ 1200 true none).firedNoJob
      = true := by
  refine ⟨by norm_num [datumTick], by norm_num [datumTick],
    by norm_num [datumTick], by norm_num [datumTick]⟩

/-- C5 amended: alert classes with distinct last-fired fields are
independent — the zero-clients timestamp changes only when the
zero-clients alert itself fires — but the service-inactive and
no-job-progress classes share `_last_alert_ts`: it is rewritten to `now`
exactly when either of the two fires, so firing either one resets the
other's cooldown as well. -/
theorem c5_shared_timestamp (cd njs : ℚ) (s : DatumState) (now : ℚ)
    (active : Bool) (job : Option DatumJob) (r : DatumTickResult)
    (hr : r = datumTick cd njs s now active job) :
    (r.firedZeroClients = false →
      r.state.lastZeroClientAlertTs = s.lastZeroClientAlertTs) ∧
    (r.firedZeroClients = true → r.state.lastZeroClientAlertTs = now) ∧
    (r.firedInactive = false → r.firedNoJob = false →
      r.state.lastAlertTs = s.lastAlertTs) ∧
    (r.firedInactive = true ∨ r.firedNoJob = true →
      r.state.lastAlertTs = now) := by
  subst hr
  obtain ⟨la, lz, lj⟩ := s
  cases active <;> cases job <;> cases lj <;>
    simp only [datumTick] <;> split_ifs <;> simp_all
  all_goals (split_ifs <;> simp_all)

/-- Witness for C5 amended: concrete ticks in which the inactive alert
moves the shared timestamp and the zero-clients alert leaves it alone. -/
theorem c5_shared_timestamp_witness :
    (datumTick 900 300 ⟨0, 0, some 0⟩ 1000 false none).state.lastAlertTs
      = 1000 ∧
    (datumTick 900 300 ⟨0, 500, some 0⟩ 1000 true
        (some ⟨0, 950⟩)).state.lastAlertTs = 0 :=
  ⟨(c5_shared_timestamp 900 300 ⟨0, 0, some 0⟩ 1000 false none _ rfl).2.2.2
      (Or.inl (by norm_num [datumTick])),
   (c5_shared_timestamp 900 300 ⟨0, 500, some 0⟩ 1000 true
      (some ⟨0, 950⟩) _ rfl).2.2.1 (by norm_num [datumTick])
     (by norm_num [datumTick])⟩

/-- C6 counterexample: the claim's eviction clause — the history length
never exceeds the window capacity — fails at capacity `0`, a representable
configuration (`SPEED_WINDOW=0`): Python's trim `samples[-window:]`
evaluates `samples[-0:]`, i.e. `samples[0:]`, a no-op, so after a fresh
tracker of window `0` sees heights `0` then `1` one second apart, one rate
sample is retained and the history length `1` exceeds the capacity `0`. -/
theorem c6_counterexample :
    ¬((((SpeedTracker.mk0 0).update (some 0) 0).update (some 1) 1).samples.length
      ≤ (((SpeedTracker.mk0 0).update (some 0) 0).update (some 1) 1).window) := by
  norm_num [SpeedTracker.update, SpeedTracker.mk0, pySliceLast]

/-- C6 amended: when a previous observation exists, `SpeedTracker.update`
appends the rate sample `dcount/dt` if and only if `dt > 0` and
`dcount >= 0` (so a counter decrease appends nothing), the history length
stays within the window capacity provided that capacity is positive (with
capacity `0`, Python's `[-0:]` trim is a no-op), `last_height` and
`last_time` are always reassigned — including to the new lower value after
a decrease — and the first-ever call appends nothing. -/
theorem c6_update_contract (s : SpeedTracker) (lh : Int) (lt : ℚ) (h : Int)
    (now : ℚ) (hlh : s.last_height = some lh) (hlt : s.last_time = some lt)
    (u : SpeedTracker) (hu : u = s.update (some h) now) :
    (0 < now - lt → 0 ≤ h - lh →
      u.samples.getLast? = some (((h - lh : Int) : ℚ) / (now - lt))) ∧
    (¬(0 < now - lt ∧ 0 ≤ h - lh) → u.samples = s.samples) ∧
    (1 ≤ s.window → s.samples.length ≤ s.window →
      u.samples.length ≤ s.window) ∧
    (u.last_height = some h ∧ u.last_time = some now) ∧
    (h < lh → u.samples = s.samples ∧ u.last_height = some h) ∧
    (∀ (s' : SpeedTracker) (ho : Option Int) (now' : ℚ),
      s'.last_height = none →
      (s'.update ho now').samples = s'.samples ∧
      (s'.update ho now').last_height = ho ∧
      (s'.update ho now').last_time = some now') := by
  subst hu
  refine ⟨fun hdt hdh => ?_, fun hng => ?_, fun hw hlen => ?_, ?_,
    fun hdec => ?_, fun s' ho now' hnone => ?_⟩
  · simp only [SpeedTracker.update, hlh, hlt]
    have hg : 0 < now - lt ∧ 0 ≤ h - lh := ⟨hdt, hdh⟩
    simp only [if_pos hg]
    set q : ℚ := ((h - lh : Int) : ℚ) / (now - lt) with hq
    split
    · rename_i hlong
      unfold pySliceLast
      split
      · simp
      · rename_i hw0
        rw [getLast?_drop_of_lt]
        · simp
        · have : 0 < s.window := Nat.pos_of_ne_zero hw0
          simp only [List.length_append, List.length_cons,
            List.length_nil]
          omega
    · simp
  · simp only [SpeedTracker.update, hlh, hlt]
    rw [if_neg hng]
  · simp only [SpeedTracker.update, hlh, hlt]
    split
    · split
      · rename_i hlong
        rw [pySliceLast_length (by omega)]
        omega
      · rename_i hshort
        simp only [not_lt] at hshort
        exact hshort
    · exact hlen
  · constructor <;> simp [SpeedTracker.update]
  · have hng : ¬(0 < now - lt ∧ 0 ≤ h - lh) := by
      rintro ⟨-, hcon⟩
      omega
    refine ⟨?_, by simp [SpeedTracker.update]⟩
    simp only [SpeedTracker.update, hlh, hlt]
    rw [if_neg hng]
  · refine ⟨?_, by simp [SpeedTracker.update], by simp [SpeedTracker.update]⟩
    simp only [SpeedTracker.update, hnone]

/-- Witness for C6 amended: from `last_height = 10` at time `100`, an
update to height `12` at time `104` appends the sample `1/2` and updates
the observation fields. -/
theorem c6_update_contract_witness :
    ((⟨50, [], some 10, some 100⟩ : SpeedTracker).update (some 12) 104).samples.getLast?
        = some (1/2) ∧
    ((⟨50, [], some 10, some 100⟩ : SpeedTracker).update (some 12) 104).last_time
        = some 104 :=
  have hc := c6_update_contract ⟨50, [], some 10, some 100⟩ 10 100 12 104
    rfl rfl _ rfl
  ⟨by
    have h1 := hc.1 (by norm_num) (by norm_num)
    norm_num at h1
    norm_num [h1],
   hc.2.2.2.1.2⟩

/-- The claim's EMA recurrence over the retained samples, indexed from the
oldest: `ema_0 = samples[0]`, `ema_i = alpha * samples[i] +
(1 - alpha) * ema_(i-1)`. -/
def emaAt (xs : List ℚ) : Nat → ℚ
  | 0 => xs.headI
  | i + 1 => alpha * xs.getD (i + 1) 0 + (1 - alpha) * emaAt xs i

/-- `emaAt` only looks at indices up to its argument, so appending an
element on the right does not change earlier values. -/
theorem emaAt_concat (xs : List ℚ) (z : ℚ) :
    ∀ i, i < xs.length → emaAt (xs ++ [z]) i = emaAt xs i := by
  intro i
  induction i with
  | zero =>
    intro hi
    cases xs with
    | nil => simp at hi
    | cons a t => simp [emaAt]
  | succ i ih =>
    intro hi
    have hi' : i < xs.length := Nat.lt_of_succ_lt hi
    simp only [emaAt, ih hi']
    have hget : (xs ++ [z]).getD (i + 1) 0 = xs.getD (i + 1) 0 := by
      simp only [List.getD_eq_getElem?_getD]
      rw [List.getElem?_append_left hi]
    rw [hget]

/-- The source's seeded left fold equals the claim's indexed recurrence at
the final index. -/
theorem emaFold_eq_emaAt (x : ℚ) (rest : List ℚ) :
    emaFold x rest = emaAt (x :: rest) rest.length := by
  induction rest using List.reverseRecOn with
  | nil => simp [emaFold, emaAt]
  | append_singleton ys z ih =>
    have hlen : (x :: ys).length = ys.length + 1 := rfl
    have hget : (x :: (ys ++ [z])).getD (ys.length + 1) 0 = z := by
      have : (x :: (ys ++ [z])) = (x :: ys) ++ [z] := by simp
      rw [this]
      simp only [List.getD_eq_getElem?_getD]
      rw [← hlen, List.getElem?_concat_length]
      rfl
    have hcut : ∀ j, j < (x :: ys).length →
        emaAt ((x :: ys) ++ [z]) j = emaAt (x :: ys) j :=
      emaAt_concat (x :: ys) z
    simp only [List.cons_append] at hcut
    calc emaFold x (ys ++ [z])
        = alpha * z + (1 - alpha) * emaFold x ys := by
          simp [emaFold]
      _ = alpha * z + (1 - alpha) * emaAt (x :: ys) ys.length := by rw [ih]
      _ = emaAt (x :: (ys ++ [z])) (ys.length + 1) := by
          simp only [emaAt, hget]
          rw [hcut ys.length (by simp [hlen])]
      _ = emaAt (x :: (ys ++ [z])) (ys ++ [z]).length := by
          simp

/-- The population standard deviation of a one-element window is `0`. -/
theorem pstdev_singleton (x : ℚ) : pstdev [x] = 0 := by
  have hv : pvarianceQ [x] = 0 := by
    simp [pvarianceQ, listMean]
  rw [pstdev, hv]
  simp

/-- C7: `get_stats` returns `(None, None)` exactly when the rate history is
empty; otherwise the first component is the EMA with smoothing factor
`0.2` seeded at the oldest retained sample (the indexed recurrence
`ema_0 = samples[0]`, `ema_i = 0.2*samples[i] + 0.8*ema_(i-1)` taken at the
last index), and the second is the population standard deviation of the
full retained window, which is `0.0` when exactly one sample is held. -/
theorem c7_get_stats_spec (s : SpeedTracker) :
    (s.get_stats = (none, none) ↔ s.samples = []) ∧
    (∀ x rest, s.samples = x :: rest →
      (s.get_stats).1 = some (emaAt (x :: rest) rest.length) ∧
      (s.get_stats).2 = some (pstdev (x :: rest)) ∧
      (rest = [] → (s.get_stats).2 = some 0)) := by
  constructor
  · cases hs : s.samples with
    | nil => simp [SpeedTracker.get_stats, hs]
    | cons x rest =>
      simp [SpeedTracker.get_stats, hs, Prod.ext_iff]
  · intro x rest hs
    refine ⟨?_, ?_, fun hr => ?_⟩
    · simp [SpeedTracker.get_stats, hs, emaFold_eq_emaAt]
    · cases rest with
      | nil =>
        simp [SpeedTracker.get_stats, hs, pstdev_singleton]
      | cons y t =>
        simp [SpeedTracker.get_stats, hs]
    · subst hr
      simp [SpeedTracker.get_stats, hs]

/-- Witness for C7 at concrete trackers: empty history gives
`(None, None)`; the one-sample history `[3]` gives EMA `3` and stdev `0`. -/
theorem c7_get_stats_spec_witness :
    (⟨50, [], none, none⟩ : SpeedTracker).get_stats = (none, none) ∧
    ((⟨50, [3], some 7, some 2⟩ : SpeedTracker).get_stats).1 = some 3 ∧
    ((⟨50, [3], some 7, some 2⟩ : SpeedTracker).get_stats).2 = some 0 :=
  have h2 := (c7_get_stats_spec ⟨50, [3], some 7, some 2⟩).2 3 [] rfl
  ⟨(c7_get_stats_spec ⟨50, [], none, none⟩).1.mpr rfl,
   by simpa [emaAt] using h2.1,
   h2.2.2 rfl⟩

/-- The claim's run hypothesis: consecutive updates carry strictly
increasing counters and strictly increasing observation times. -/
def strictlyProgressing : List (Int × ℚ) → Bool
  | [] => true
  | [_] => true
  | p :: q :: rest =>
    decide (p.1 < q.1) && decide (p.2 < q.2) &&
      strictlyProgressing (q :: rest)

/-- Feed a sequence of `(height, now)` observations through
`SpeedTracker.update`. -/
def runUpdates (s : SpeedTracker) (us : List (Int × ℚ)) : SpeedTracker :=
  us.foldl (fun s p => s.update (some p.1) p.2) s

/-- A left `max` fold dominates its seed and every list element. -/
theorem foldl_max_bounds (xs : List ℚ) :
    ∀ a : ℚ, a ≤ xs.foldl max a ∧ ∀ y ∈ xs, y ≤ xs.foldl max a := by
  induction xs with
  | nil => intro a; simp
  | cons z t ih =>
    intro a
    refine ⟨le_trans (le_max_left a z) (ih (max a z)).1, ?_⟩
    intro y hy
    rcases List.mem_cons.mp hy with rfl | hy'
    · exact le_trans (le_max_right a y) (ih (max a y)).1
    · exact (ih (max a z)).2 y hy'

/-- `SpeedTracker.update` preserves non-negativity of the retained rate
window: a sample is only appended under the guard `dt > 0 ∧ dcount ≥ 0`,
and then equals the non-negative quotient `dcount/dt`. -/
theorem update_samples_nonneg (s : SpeedTracker) (ho : Option Int) (now : ℚ)
    (hs : ∀ x ∈ s.samples, 0 ≤ x) :
    ∀ x ∈ (s.update ho now).samples, 0 ≤ x := by
  intro x hx
  rcases ho with _ | h
  · rcases hlh : s.last_height with _ | lh <;>
      simp only [SpeedTracker.update, hlh] at hx <;> exact hs x hx
  · rcases hlh : s.last_height with _ | lh
    · simp only [SpeedTracker.update, hlh] at hx
      exact hs x hx
    · simp only [SpeedTracker.update, hlh] at hx
      split at hx
      · rename_i hguard
        have hq : (0:ℚ) ≤ ((h - lh : Int) : ℚ) /
            (match s.last_time with
             | some t => now - t
             | none => (0:ℚ)) := by
          apply div_nonneg
          · exact_mod_cast hguard.2
          · exact le_of_lt hguard.1
        split at hx
        · have hx' := mem_of_mem_pySliceLast hx
          rcases List.mem_append.mp hx' with hold | hnew
          · exact hs x hold
          · rcases List.mem_singleton.mp hnew with rfl
            exact hq
        · rcases List.mem_append.mp hx with hold | hnew
          · exact hs x hold
          · rcases List.mem_singleton.mp hnew with rfl
            exact hq
      · exact hs x hx

/-- Every tracker reached by a run of updates from a state with a
non-negative window keeps a non-negative window. -/
theorem runUpdates_samples_nonneg (us : List (Int × ℚ)) :
    ∀ (s : SpeedTracker), (∀ x ∈ s.samples, 0 ≤ x) →
      ∀ x ∈ (runUpdates s us).samples, 0 ≤ x := by
  induction us with
  | nil => intro s hs; exact hs
  | cons p rest ih =>
    intro s hs
    exact ih (s.update (some p.1) p.2) (update_samples_nonneg s _ _ hs)

/-- The seeded EMA fold stays within `[0, M]` when the seed and every
folded sample do. -/
theorem emaFold_bounds (xs : List ℚ) :
    ∀ a M : ℚ, 0 ≤ a → a ≤ M → (∀ y ∈ xs, 0 ≤ y ∧ y ≤ M) →
      0 ≤ emaFold a xs ∧ emaFold a xs ≤ M := by
  induction xs with
  | nil => intro a M ha0 haM _; exact ⟨ha0, haM⟩
  | cons z t ih =>
    intro a M ha0 haM hx
    have hz := hx z (List.mem_cons_self z t)
    have hstep0 : 0 ≤ alpha * z + (1 - alpha) * a := by
      rw [alpha]; nlinarith [hz.1]
    have hstepM : alpha * z + (1 - alpha) * a ≤ M := by
      rw [alpha]; nlinarith [hz.2]
    have := ih (alpha * z + (1 - alpha) * a) M hstep0 hstepM
      (fun y hy => hx y (List.mem_cons_of_mem z hy))
    simpa [emaFold] using this

/-- C8: for every run of updates on a fresh tracker with strictly
increasing counters and strictly increasing observation times, the EMA
reported by `get_stats` is non-negative and bounded by the maximum
instantaneous rate retained in the window. -/
theorem c8_ema_bounded (w : Nat) (us : List (Int × ℚ))
    (_hprog : strictlyProgressing us = true) (e : ℚ)
    (he : ((runUpdates (SpeedTracker.mk0 w) us).get_stats).1 = some e) :
    0 ≤ e ∧ e ≤ listMax (runUpdates (SpeedTracker.mk0 w) us).samples := by
  have hnn : ∀ x ∈ (runUpdates (SpeedTracker.mk0 w) us).samples, 0 ≤ x :=
    runUpdates_samples_nonneg us (SpeedTracker.mk0 w) (by simp [SpeedTracker.mk0])
  rcases hsam : (runUpdates (SpeedTracker.mk0 w) us).samples with _ | ⟨x, rest⟩
  · rw [SpeedTracker.get_stats, hsam] at he
    simp at he
  · rw [SpeedTracker.get_stats, hsam] at he
    simp only [Option.some.injEq] at he
    have hM := foldl_max_bounds rest x
    have hx0 : 0 ≤ x := hnn x (by rw [hsam]; exact List.mem_cons_self x rest)
    have hrest : ∀ y ∈ rest, 0 ≤ y ∧ y ≤ rest.foldl max x := by
      intro y hy
      exact ⟨hnn y (by rw [hsam]; exact List.mem_cons_of_mem x hy),
        hM.2 y hy⟩
    have hb := emaFold_bounds rest x (rest.foldl max x) hx0 hM.1 hrest
    rw [he] at hb
    simpa [listMax] using hb

/-- Witness for C8: the run `(0 at t=0), (1 at t=1), (3 at t=2)` retains
the samples `[1, 2]`, whose EMA `6/5` lies in `[0, 2]`. -/
theorem c8_ema_bounded_witness :
    0 ≤ (6/5 : ℚ) ∧ (6/5 : ℚ) ≤
      listMax (runUpdates (SpeedTracker.mk0 50)
        [((0:Int), (0:ℚ)), (1, 1), (3, 2)]).samples :=
  c8_ema_bounded 50 [((0:Int), (0:ℚ)), (1, 1), (3, 2)]
    (by norm_num [strictlyProgressing]) (6/5)
    (by norm_num [runUpdates, SpeedTracker.update, SpeedTracker.mk0,
      SpeedTracker.get_stats, emaFold, alpha, pySliceLast])

/-- A regression failure is caught by `compute_eta_and_charts` and turned
into a textual error outcome: no success value is ever produced. -/
theorem computeEta_not_ok_of_fitError (xs : List Sample) (e : FitError)
    (hf : fitRegression (monotonicProgress xs) = .error e) :
    ∀ r, computeEtaAndCharts xs ≠ .ok r := by
  intro r hok
  simp only [computeEtaAndCharts, hf] at hok
  split_ifs at hok

/-- C9: the regression fit fails with the insufficient-data errors on every
input with fewer than 5 monotonic-filtered samples and on every input
whose retained samples span zero elapsed time, and fails with the
non-positive-rate error whenever the fitted least-squares slope is `<= 0`
(in particular it never succeeds then); in each of these cases the entry
point `compute_eta_and_charts` returns an error outcome and no ETA, and —
all modelled functions being total — the failure never propagates as a
fatal error. -/
theorem c9_fit_failure_modes (allSamples samples : List Sample)
    (hs : samples = monotonicProgress allSamples) :
    (samples.length < 5 →
      fitRegression samples = .error .notEnoughPoints ∧
      ∀ r, computeEtaAndCharts allSamples ≠ .ok r) ∧
    (timeSpan samples ≤ 0 →
      (fitRegression samples = .error .notEnoughPoints ∨
       fitRegression samples = .error .zeroTimeSpan) ∧
      ∀ r, computeEtaAndCharts allSamples ≠ .ok r) ∧
    (lsqSlope (timesSec samples)
        (samples.map (fun s => (s.fulcrum_height : ℚ))) ≤ 0 →
      (∀ ab : ℚ × ℚ, fitRegression samples ≠ .ok ab) ∧
      (5 ≤ samples.length → 0 < timeSpan samples →
        fitRegression samples = .error .nonPositiveRate) ∧
      ∀ r, computeEtaAndCharts allSamples ≠ .ok r) := by
  refine ⟨fun h5 => ?_, fun hspan => ?_, fun hslope => ?_⟩
  · have hf : fitRegression samples = .error .notEnoughPoints := by
      simp [fitRegression, h5]
    exact ⟨hf, computeEta_not_ok_of_fitError allSamples _ (hs ▸ hf)⟩
  · have hspan' : listMax (timesSec samples) - listMin (timesSec samples)
        ≤ 0 := hspan
    have hf : fitRegression samples = .error .notEnoughPoints ∨
        fitRegression samples = .error .zeroTimeSpan := by
      by_cases h5 : samples.length < 5
      · exact Or.inl (by simp [fitRegression, h5])
      · refine Or.inr ?_
        simp only [fitRegression, if_neg h5]
        rw [if_pos hspan']
    rcases hf with hf | hf
    · exact ⟨Or.inl hf, computeEta_not_ok_of_fitError allSamples _ (hs ▸ hf)⟩
    · exact ⟨Or.inr hf, computeEta_not_ok_of_fitError allSamples _ (hs ▸ hf)⟩
  · have hnotok : ∀ ab : ℚ × ℚ, fitRegression samples ≠ .ok ab := by
      intro ab hok
      simp only [fitRegression] at hok
      by_cases h5 : samples.length < 5
      · simp [h5] at hok
      · simp only [if_neg h5] at hok
        by_cases hsp0 : listMax (timesSec samples) - listMin (timesSec samples)
            ≤ 0
        · simp [hsp0] at hok
        · rw [if_neg hsp0, if_pos hslope] at hok
          exact Except.noConfusion hok
    have hf : ∃ e, fitRegression samples = .error e := by
      rcases hfe : fitRegression samples with e | ab
      · exact ⟨e, rfl⟩
      · exact absurd hfe (hnotok ab)
    rcases hf with ⟨e, hf⟩
    refine ⟨hnotok, fun h5big hsp => ?_,
      computeEta_not_ok_of_fitError allSamples _ (hs ▸ hf)⟩
    have hsp' : ¬ (listMax (timesSec samples) - listMin (timesSec samples)
        ≤ 0) := not_le.mpr hsp
    simp only [fitRegression, if_neg (not_lt.mpr h5big)]
    rw [if_neg hsp', if_pos hslope]

/-- Witness for C9: three samples trigger the not-enough-points error; five
simultaneous samples trigger the zero-time-span error; five regressing
samples trigger the non-positive-rate error; the short input's entry point
never returns a success outcome. -/
theorem c9_fit_failure_modes_witness :
    fitRegression [⟨0,1,10⟩, ⟨1,2,9⟩, ⟨2,3,8⟩] = .error .notEnoughPoints ∧
    (fitRegression [⟨0,1,10⟩, ⟨0,2,9⟩, ⟨0,3,8⟩, ⟨0,4,7⟩, ⟨0,5,6⟩]
        = .error .notEnoughPoints ∨
     fitRegression [⟨0,1,10⟩, ⟨0,2,9⟩, ⟨0,3,8⟩, ⟨0,4,7⟩, ⟨0,5,6⟩]
        = .error .zeroTimeSpan) ∧
    fitRegression [⟨0,5,10⟩, ⟨1,4,9⟩, ⟨2,3,8⟩, ⟨3,2,7⟩, ⟨4,1,6⟩]
        = .error .nonPositiveRate ∧
    computeEtaAndCharts [⟨0,1,10⟩, ⟨1,2,9⟩, ⟨2,3,8⟩]
        ≠ .ok ⟨0, 0, 0, 0, 0, 0, 0, 0⟩ :=
  have hA := c9_fit_failure_modes [⟨0,1,10⟩, ⟨1,2,9⟩, ⟨2,3,8⟩] _ rfl
  have hZ := c9_fit_failure_modes [⟨0,1,10⟩, ⟨0,2,9⟩, ⟨0,3,8⟩, ⟨0,4,7⟩, ⟨0,5,6⟩]
    _ rfl
  have hN := c9_fit_failure_modes [⟨0,5,10⟩, ⟨1,4,9⟩, ⟨2,3,8⟩, ⟨3,2,7⟩, ⟨4,1,6⟩]
    _ rfl
  have h5A : (monotonicProgress [⟨0,1,10⟩, ⟨1,2,9⟩, ⟨2,3,8⟩]).length < 5 := by
    norm_num [monotonicProgress, monoFilterFrom]
  have hspanZ : timeSpan (monotonicProgress
      [⟨0,1,10⟩, ⟨0,2,9⟩, ⟨0,3,8⟩, ⟨0,4,7⟩, ⟨0,5,6⟩]) ≤ 0 := by
    norm_num [monotonicProgress, monoFilterFrom, timeSpan, timesSec,
      listMax, listMin]
  have hslopeN : lsqSlope
      (timesSec (monotonicProgress [⟨0,5,10⟩, ⟨1,4,9⟩, ⟨2,3,8⟩, ⟨3,2,7⟩, ⟨4,1,6⟩]))
      ((monotonicProgress [⟨0,5,10⟩, ⟨1,4,9⟩, ⟨2,3,8⟩, ⟨3,2,7⟩, ⟨4,1,6⟩]).map
        (fun s => (s.fulcrum_height : ℚ))) ≤ 0 := by
    norm_num [monotonicProgress, monoFilterFrom, lsqSlope, dotQ, timesSec]
  have hmA : fitRegression (monotonicProgress [⟨0,1,10⟩, ⟨1,2,9⟩, ⟨2,3,8⟩])
      = fitRegression [⟨0,1,10⟩, ⟨1,2,9⟩, ⟨2,3,8⟩] := by
    norm_num [monotonicProgress, monoFilterFrom]
  have hmZ : fitRegression (monotonicProgress
        [⟨0,1,10⟩, ⟨0,2,9⟩, ⟨0,3,8⟩, ⟨0,4,7⟩, ⟨0,5,6⟩])
      = fitRegression [⟨0,1,10⟩, ⟨0,2,9⟩, ⟨0,3,8⟩, ⟨0,4,7⟩, ⟨0,5,6⟩] := by
    norm_num [monotonicProgress, monoFilterFrom]
  have hmN : fitRegression (monotonicProgress
        [⟨0,5,10⟩, ⟨1,4,9⟩, ⟨2,3,8⟩, ⟨3,2,7⟩, ⟨4,1,6⟩])
      = fitRegression [⟨0,5,10⟩, ⟨1,4,9⟩, ⟨2,3,8⟩, ⟨3,2,7⟩, ⟨4,1,6⟩] := by
    norm_num [monotonicProgress, monoFilterFrom]
  ⟨hmA ▸ (hA.1 h5A).1,
   by
     rcases (hZ.2.1 hspanZ).1 with hcase | hcase
     · exact Or.inl (hmZ ▸ hcase)
     · exact Or.inr (hmZ ▸ hcase),
   hmN ▸ ((hN.2.2 hslopeN).2.1
     (by norm_num [monotonicProgress, monoFilterFrom])
     (by norm_num [monotonicProgress, monoFilterFrom, timeSpan, timesSec,
        listMax, listMin])),
   (hA.1 h5A).2 ⟨0, 0, 0, 0, 0, 0, 0, 0⟩⟩

/-- C10: even after a successful fit (at least 5 filtered samples, positive
slope), the projection fails whenever the last retained sample's remaining
lag is `<= 0` — `_format_eta_summary` raises, the entry point returns the
caught-error outcome with no charts — so a positive remaining lag is a
precondition of every successful ETA result. -/
theorem c10_positive_lag_required (allSamples samples : List Sample)
    (hs : samples = monotonicProgress allSamples) (a b : ℚ)
    (hfit : fitRegression samples = .ok (a, b)) (last : Sample)
    (hlast : samples.getLast? = some last) :
    (last.lag ≤ 0 → computeEtaAndCharts allSamples = .etaFailed) ∧
    (∀ r, computeEtaAndCharts allSamples = .ok r → 0 < last.lag) := by
  subst hs
  have h5 : ¬ ((monotonicProgress allSamples).length < 5) := by
    intro h
    simp [fitRegression, h] at hfit
  have hne : allSamples.isEmpty = false := by
    cases allSamples with
    | nil => simp [monotonicProgress, monoFilterFrom] at h5
    | cons a t => rfl
  have hcompute : computeEtaAndCharts allSamples =
      (match formatEtaSummary (monotonicProgress allSamples) a with
       | .error _ => .etaFailed
       | .ok r => .ok r) := by
    simp only [computeEtaAndCharts, hne, Bool.false_eq_true, if_false,
      if_neg h5, hfit]
  refine ⟨fun hlag => ?_, fun r hok => ?_⟩
  · rw [hcompute]
    simp [formatEtaSummary, hlast, hlag]
  · by_cases hlag : last.lag ≤ 0
    · rw [hcompute] at hok
      simp [formatEtaSummary, hlast, hlag] at hok
    · omega

/-- Witness for C10: five strictly progressing samples whose final lag is
`0` fit successfully with slope `1/10` but the entry point reports the
caught summary error. -/
theorem c10_positive_lag_required_witness :
    computeEtaAndCharts
      [⟨0,100,4⟩, ⟨600,160,3⟩, ⟨1200,220,2⟩, ⟨1800,280,1⟩, ⟨2400,340,0⟩]
      = .etaFailed :=
  (c10_positive_lag_required
    [⟨0,100,4⟩, ⟨600,160,3⟩, ⟨1200,220,2⟩, ⟨1800,280,1⟩, ⟨2400,340,0⟩]
    [⟨0,100,4⟩, ⟨600,160,3⟩, ⟨1200,220,2⟩, ⟨1800,280,1⟩, ⟨2400,340,0⟩]
    (by norm_num [monotonicProgress, monoFilterFrom]) (1/10) 100
    (by norm_num [fitRegression, timesSec, listMax, listMin, lsqSlope,
      lsqIntercept, dotQ])
    ⟨2400,340,0⟩ (by norm_num)).1 (by norm_num)

/-- On a tick whose fulcrum reading repeats the stored height, the stall
branch runs: with the threshold exceeded and `stall_notified` clear, the
tick alerts, runs the recovery gate and sets `stall_notified`; otherwise it
changes nothing. -/
theorem monTick_frozen (cfg : MonConfig) (s : MonState) (i : TickInput)
    (h : Int) (t0 : ℚ) (b : Int)
    (hh : s.lastFulcrumHeight = some h)
    (ht : s.lastHeightChangeTime = some t0)
    (hfi : i.fulHeight = some h) (hbi : i.btcHeight = some b) :
    (cfg.stallThreshold < i.now - t0 ∧ s.stallNotified = false →
      monTick cfg s i =
        ⟨{ s with
             stallNotified := true
             lastRecoveryTime := (attemptRecovery cfg s.lastRecoveryTime
               i.now i.probeHeight i.probeLatency).lastRecoveryTime },
         true,
         some (attemptRecovery cfg s.lastRecoveryTime i.now i.probeHeight
           i.probeLatency)⟩) ∧
    (¬(cfg.stallThreshold < i.now - t0 ∧ s.stallNotified = false) →
      monTick cfg s i = ⟨s, false, none⟩) := by
  constructor
  · intro hc
    simp only [monTick, hbi, hfi, hh, ht]
    rw [if_neg (by simp), if_pos hc]
  · intro hc
    simp only [monTick, hbi, hfi, hh, ht]
    rw [if_neg (by simp), if_neg hc]

/-- On a tick whose fulcrum reading differs from the stored height (or when
no height is stored yet), the progress branch records the datapoint and
clears `stall_notified`, emitting no stall alert. -/
theorem monTick_progress (cfg : MonConfig) (s : MonState) (i : TickInput)
    (h' : Int) (b : Int)
    (hfi : i.fulHeight = some h') (hbi : i.btcHeight = some b)
    (hdiff : s.lastFulcrumHeight = none ∨ some h' ≠ s.lastFulcrumHeight) :
    monTick cfg s i =
      ⟨{ s with
           lastFulcrumHeight := some h'
           lastHeightChangeTime := some i.now
           stallNotified := false }, false, none⟩ := by
  simp only [monTick, hbi, hfi]
  rw [if_pos hdiff]

/-- `monRun` splits over list append: states chain and alert counts add. -/
theorem monRun_append (cfg : MonConfig) :
    ∀ (l1 l2 : List TickInput) (s : MonState),
      monRun cfg s (l1 ++ l2) =
        ((monRun cfg (monRun cfg s l1).1 l2).1,
         (monRun cfg s l1).2 + (monRun cfg (monRun cfg s l1).1 l2).2) := by
  intro l1
  induction l1 with
  | nil => intro l2 s; simp [monRun]
  | cons i rest ih =>
    intro l2 s
    simp only [List.cons_append, monRun, List.append_eq]
    rw [ih l2 (monTick cfg s i).state]
    simp [Nat.add_assoc]

/-- Run invariant for a frozen episode: while every tick repeats the stored
height, the stored height and last-change time persist; from a notified
state no alert is ever emitted again; from an unnotified state at most one
alert is emitted, and exactly one as soon as some tick of the episode
exceeds the stall threshold. -/
theorem monRun_frozen (cfg : MonConfig) (h : Int) (t0 : ℚ) :
    ∀ (ticks : List TickInput) (s : MonState),
      s.lastFulcrumHeight = some h → s.lastHeightChangeTime = some t0 →
      (∀ i ∈ ticks, i.fulHeight = some h ∧ i.btcHeight ≠ none) →
      ((monRun cfg s ticks).1.lastFulcrumHeight = some h ∧
       (monRun cfg s ticks).1.lastHeightChangeTime = some t0 ∧
       (s.stallNotified = true → (monRun cfg s ticks).2 = 0 ∧
         (monRun cfg s ticks).1.stallNotified = true) ∧
       (s.stallNotified = false →
         ((∃ i ∈ ticks, cfg.stallThreshold < i.now - t0) →
           (monRun cfg s ticks).2 = 1) ∧
         (monRun cfg s ticks).2 ≤ 1)) := by
  intro ticks
  induction ticks with
  | nil =>
    intro s hh ht _
    refine ⟨hh, ht, fun hnt => ⟨rfl, hnt⟩, fun _ => ⟨?_, by simp [monRun]⟩⟩
    rintro ⟨i, hi, -⟩
    exact absurd hi (List.not_mem_nil i)
  | cons i rest ih =>
    intro s hh ht hfroz
    obtain ⟨hfi, hbi⟩ := hfroz i (List.mem_cons_self i rest)
    obtain ⟨b, hb⟩ := Option.ne_none_iff_exists'.mp hbi
    have hfroz' : ∀ j ∈ rest, j.fulHeight = some h ∧ j.btcHeight ≠ none :=
      fun j hj => hfroz j (List.mem_cons_of_mem i hj)
    have htick := monTick_frozen cfg s i h t0 b hh ht hfi hb
    by_cases hc : cfg.stallThreshold < i.now - t0 ∧ s.stallNotified = false
    · -- the alerting tick
      have hr := htick.1 hc
      have hstate : (monTick cfg s i).state.lastFulcrumHeight = some h ∧
          (monTick cfg s i).state.lastHeightChangeTime = some t0 ∧
          (monTick cfg s i).state.stallNotified = true := by
        rw [hr]; exact ⟨hh, ht, rfl⟩
      have halert : (monTick cfg s i).stallAlert = true := by rw [hr]
      have ihr := ih (monTick cfg s i).state hstate.1 hstate.2.1 hfroz'
      have htail := (ihr.2.2.1) hstate.2.2
      refine ⟨?_, ?_, fun hnt => ?_, fun _ => ⟨fun _ => ?_, ?_⟩⟩
      · simpa [monRun] using ihr.1
      · simpa [monRun] using ihr.2.1
      · rw [hnt] at hc; exact absurd hc.2 (by simp)
      · simp [monRun, halert, htail.1]
      · simp [monRun, halert, htail.1]
    · -- no alert this tick
      have hr := htick.2 hc
      have ihr := ih s hh ht hfroz'
      have hcount : (monRun cfg s (i :: rest)).2 = (monRun cfg s rest).2 := by
        simp only [monRun]
        rw [hr]
        simp
      have hst : (monRun cfg s (i :: rest)).1 = (monRun cfg s rest).1 := by
        simp only [monRun]
        rw [hr]
      refine ⟨by rw [hst]; exact ihr.1, by rw [hst]; exact ihr.2.1,
        fun hnt => ?_, fun hnf => ⟨fun hex => ?_, ?_⟩⟩
      · exact ⟨by rw [hcount]; exact (ihr.2.2.1 hnt).1,
          by rw [hst]; exact (ihr.2.2.1 hnt).2⟩
      · have hnow : ¬ cfg.stallThreshold < i.now - t0 := by
          intro hlt
          exact hc ⟨hlt, hnf⟩
        rcases hex with ⟨j, hj, hjlt⟩
        rcases List.mem_cons.mp hj with rfl | hj'
        · exact absurd hjlt hnow
        · rw [hcount]
          exact (ihr.2.2.2 hnf).1 ⟨j, hj', hjlt⟩
      · rw [hcount]
        exact (ihr.2.2.2 hnf).2

/-- C1: stall notification is edge-triggered. From a baseline state (stored
height `h`, last change at `t0`, not yet notified), a continuous frozen
episode in which some tick exceeds the stall threshold emits exactly one
stall alert — later ticks of the same episode emit none, however long it
lasts — and after a single tick of progress to a new height `h'` followed
by a second frozen episode exceeding the threshold, exactly one more alert
is emitted: two in total over the whole run. -/
theorem c1_stall_edge_triggered (cfg : MonConfig) (s : MonState)
    (h h' : Int) (t0 : ℚ) (ticks1 : List TickInput) (p : TickInput)
    (ticks2 : List TickInput)
    (hh : s.lastFulcrumHeight = some h)
    (ht : s.lastHeightChangeTime = some t0)
    (hn : s.stallNotified = false)
    (hf1 : ∀ i ∈ ticks1, i.fulHeight = some h ∧ i.btcHeight ≠ none)
    (hex1 : ∃ i ∈ ticks1, cfg.stallThreshold < i.now - t0)
    (hpf : p.fulHeight = some h') (hpb : p.btcHeight ≠ none) (hne : h' ≠ h)
    (hf2 : ∀ i ∈ ticks2, i.fulHeight = some h' ∧ i.btcHeight ≠ none)
    (hex2 : ∃ i ∈ ticks2, cfg.stallThreshold < i.now - p.now) :
    (monRun cfg s ticks1).2 = 1 ∧
    (monRun cfg s (ticks1 ++ p :: ticks2)).2 = 2 := by
  have H1 := monRun_frozen cfg h t0 ticks1 s hh ht hf1
  have hcount1 : (monRun cfg s ticks1).2 = 1 := (H1.2.2.2 hn).1 hex1
  refine ⟨hcount1, ?_⟩
  rw [monRun_append cfg ticks1 (p :: ticks2) s]
  obtain ⟨bp, hbp⟩ := Option.ne_none_iff_exists'.mp hpb
  have hptick := monTick_progress cfg (monRun cfg s ticks1).1 p h' bp hpf hbp
    (Or.inr (by rw [H1.1]; simp [hne]))
  have hstate2 : (monTick cfg (monRun cfg s ticks1).1 p).state.lastFulcrumHeight
        = some h' ∧
      (monTick cfg (monRun cfg s ticks1).1 p).state.lastHeightChangeTime
        = some p.now ∧
      (monTick cfg (monRun cfg s ticks1).1 p).state.stallNotified = false := by
    rw [hptick]; exact ⟨rfl, rfl, rfl⟩
  have H2 := monRun_frozen cfg h' p.now ticks2
    (monTick cfg (monRun cfg s ticks1).1 p).state
    hstate2.1 hstate2.2.1 hf2
  have hcount2 := (H2.2.2.2 hstate2.2.2).1 hex2
  have hstep : (monRun cfg (monRun cfg s ticks1).1 (p :: ticks2)).2 =
      (monRun cfg (monTick cfg (monRun cfg s ticks1).1 p).state ticks2).2 := by
    simp only [monRun]
    rw [hptick]
    simp
  rw [hcount1, hstep, hcount2]

/-- Witness for C1: baseline height `500` at `t0 = 0` with threshold
`1800`; one frozen tick at `t = 1900` fires the single alert; progress to
`501` at `t = 2000`; one frozen tick at `t = 3900` fires exactly one
more. -/
theorem c1_stall_edge_triggered_witness :
    (monRun ⟨1800, 600, false, 10, 90, 90, 65⟩
      ⟨some 500, some 0, false, 0⟩
      [⟨1900, some 600, some 500, none, 0⟩]).2 = 1 ∧
    (monRun ⟨1800, 600, false, 10, 90, 90, 65⟩
      ⟨some 500, some 0, false, 0⟩
      ([⟨1900, some 600, some 500, none, 0⟩] ++
        ⟨2000, some 600, some 501, none, 0⟩ ::
        [⟨3900, some 700, some 501, none, 0⟩])).2 = 2 :=
  c1_stall_edge_triggered ⟨1800, 600, false, 10, 90, 90, 65⟩
    ⟨some 500, some 0, false, 0⟩ 500 501 0
    [⟨1900, some 600, some 500, none, 0⟩]
    ⟨2000, some 600, some 501, none, 0⟩
    [⟨3900, some 700, some 501, none, 0⟩]
    rfl rfl rfl
    (by simp)
    ⟨⟨1900, some 600, some 500, none, 0⟩, by simp, by norm_num⟩
    rfl (by simp) (by norm_num)
    (by simp)
    ⟨⟨3900, some 700, some 501, none, 0⟩, by simp, by norm_num⟩

end BitnodeMonitor
